import Mathlib

/-!
Verification of the reference-resolution and repository-discovery core of
`nixos_rebuild/models.py` (the `nixos-rebuild-ng` package).

Shallow embedding conventions:
* Filesystem paths are modelled as lists of components of an absolute path
  (`[] = "/"`, `["a","b"] = "/a/b"`); `Path.parent` is `List.dropLast`
  (so the parent of the root is the root, as in `pathlib`).
* The filesystem itself is an abstract structure `FS` supplying the
  predicates and primitives the code consults (`is_dir`, `is_file`,
  `open`/`read`, `resolve`).
* Python string operations (`strip`, `startswith`, `split`, `in`) are
  modelled by structural functions over the character list of a `String`,
  with the semantics of the Python operations.
* The external process capability used by `get_hostname`
  (`run_wrapper` from `.process`, outside the analysed source) is modelled
  by a `ProbeResult` parameter describing the outcome of the remote
  hostname probe, and the local `platform.node()` value by a `String`
  parameter.
* The `assert` in `Flake.parse` is modelled by returning `none`:
  `Flake.parse` yields `some` exactly when the assertion does not fire.
-/

namespace NixosRebuild

/-! ### Python string primitives -/

/-- Python `str.strip()`: remove leading and trailing whitespace. -/
def pyStrip (s : String) : String :=
  String.mk
    (((s.data.dropWhile Char.isWhitespace).reverse.dropWhile
      Char.isWhitespace).reverse)

/-- Python `str.startswith(pre)`. -/
def pyStartsWith (s pre : String) : Bool :=
  pre.data.isPrefixOf s.data

/-- Python `c in s` for a single character `c`. -/
def pyContainsChar (s : String) (c : Char) : Bool :=
  s.data.contains c

/-- Split a character list at the first occurrence of the (non-empty)
separator: returns the part before it and the part after it, or `none`
when the separator does not occur. Structural helper for Python
`str.split(sep)`. -/
def splitFirst (sep : List Char) : List Char → Option (List Char × List Char)
  | [] => none
  | c :: rest =>
    if sep.isPrefixOf (c :: rest) then
      some ([], List.drop sep.length (c :: rest))
    else
      match splitFirst sep rest with
      | some (pre, post) => some (c :: pre, post)
      | none => none

/-- Python `s.split(sep)[1]` for a separator that occurs in `s` (the code
only evaluates it under a `startswith(sep)` guard): the segment of `s`
between the first occurrence of `sep` and the following one (or the end of
`s`).  Python scans occurrences left to right without overlap, so the
second occurrence is the first one in the remainder after the first. -/
def pySplitGet1 (sep : List Char) (s : String) : String :=
  match splitFirst sep s.data with
  | none => ""
  | some (_, post) =>
    match splitFirst sep post with
    | none => String.mk post
    | some (pre2, _) => String.mk pre2

/-- Split a character list on every occurrence of a single character
(Python `s.split("/")`, used to model `pathlib.Path(s)`). -/
def splitOnChar (sep : Char) : List Char → List (List Char)
  | [] => [[]]
  | c :: rest =>
    if c = sep then
      [] :: splitOnChar sep rest
    else
      match splitOnChar sep rest with
      | [] => [[c]]
      | seg :: segs => (c :: seg) :: segs

/-! ### Paths and the filesystem interface -/

/-- A filesystem path, as the list of components of an absolute path.
`[]` is the root `/`. Mirrors `pathlib.Path` restricted to absolute paths. -/
abbrev FsPath := List String

/-- `str(path)` for our path model: `/` for the root, `/a/b` otherwise. -/
def pathToString (p : FsPath) : String :=
  "/" ++ String.intercalate "/" p

/-- `pathlib.Path(s)` for our path model: split on `/` and drop empty
components (this conflates relative with absolute paths; the distinction is
irrelevant to the analysed code because every walk first applies the abstract
`resolve`). -/
def pathOfString (s : String) : FsPath :=
  ((splitOnChar '/' s.data).map String.mk).filter (fun c => c ≠ "")

/-- The filesystem primitives consumed by the discovery walks, modelling
`Path.is_dir`, `Path.is_file`, `Path.open().read()` and `Path.resolve`. -/
structure FS where
  isDir : FsPath → Bool
  isFile : FsPath → Bool
  content : FsPath → String
  resolve : FsPath → FsPath

/-! ### The discovery walks -/

/-- The upward loop of `discover_git` (models.py lines 68-83).

```python
while current.is_dir() and current != previous:
    dotgit = current / ".git"
    if dotgit.is_dir():
        return current
    elif dotgit.is_file():  # this is a worktree
        with dotgit.open() as f:
            dotgit_content = f.read().strip()
            if dotgit_content.startswith("gitdir: "):
                return Path(dotgit_content.split("gitdir: ")[1])
    previous = current
    current = current.parent
return None
```
-/
def gitWalk (fs : FS) (previous : Option FsPath) (current : FsPath) :
    Option FsPath :=
  if h : fs.isDir current = true ∧ previous ≠ some current then
    let dotgit := current ++ [".git"]
    if fs.isDir dotgit then
      some current
    else if fs.isFile dotgit then
      let dotgit_content := pyStrip (fs.content dotgit)
      if pyStartsWith dotgit_content "gitdir: " then
        some (pathOfString (pySplitGet1 "gitdir: ".data dotgit_content))
      else
        gitWalk fs (some current) current.dropLast
    else
      gitWalk fs (some current) current.dropLast
  else
    none
termination_by current.length + (if previous = some current then 0 else 1)
decreasing_by
  all_goals
    rw [if_neg h.2]
    cases current with
    | nil => simp
    | cons a l =>
        have hl : (a :: l).dropLast.length = l.length := by
          simp [List.length_dropLast]
        rw [hl]
        have hc2 : (a :: l).length = l.length + 1 := by simp
        rw [hc2]
        split
        · omega
        · omega

/-- `discover_git(location)`: resolve, then walk upwards. -/
def discover_git (fs : FS) (location : FsPath) : Option FsPath :=
  gitWalk fs none (fs.resolve location)

/-- The upward loop of `discover_closest_flake` (models.py lines 90-100). -/
def flakeWalk (fs : FS) (previous : Option FsPath) (current : FsPath) :
    Option FsPath :=
  if h : fs.isDir current = true ∧ previous ≠ some current then
    if fs.isFile (current ++ ["flake.nix"]) then
      some current
    else
      flakeWalk fs (some current) current.dropLast
  else
    none
termination_by current.length + (if previous = some current then 0 else 1)
decreasing_by
  all_goals
    rw [if_neg h.2]
    cases current with
    | nil => simp
    | cons a l =>
        have hl : (a :: l).dropLast.length = l.length := by
          simp [List.length_dropLast]
        rw [hl]
        have hc2 : (a :: l).length = l.length + 1 := by simp
        rw [hc2]
        split
        · omega
        · omega

/-- `discover_closest_flake(location)`: resolve, then walk upwards. -/
def discover_closest_flake (fs : FS) (location : FsPath) : Option FsPath :=
  flakeWalk fs none (fs.resolve location)

/-- Fuel-bounded variant of the `discover_git` loop, used to express the
step bound of the walk: `gitWalkFuel fs fuel prev cur` performs at most
`fuel` loop iterations and returns `none` if the fuel runs out. -/
def gitWalkFuel (fs : FS) : Nat → Option FsPath → FsPath → Option FsPath
  | 0, _, _ => none
  | fuel + 1, previous, current =>
    if fs.isDir current = true ∧ previous ≠ some current then
      let dotgit := current ++ [".git"]
      if fs.isDir dotgit then
        some current
      else if fs.isFile dotgit then
        let dotgit_content := pyStrip (fs.content dotgit)
        if pyStartsWith dotgit_content "gitdir: " then
          some (pathOfString (pySplitGet1 "gitdir: ".data dotgit_content))
        else
          gitWalkFuel fs fuel (some current) current.dropLast
      else
        gitWalkFuel fs fuel (some current) current.dropLast
    else
      none

/-- Fuel-bounded variant of the `discover_closest_flake` loop. -/
def flakeWalkFuel (fs : FS) : Nat → Option FsPath → FsPath → Option FsPath
  | 0, _, _ => none
  | fuel + 1, previous, current =>
    if fs.isDir current = true ∧ previous ≠ some current then
      if fs.isFile (current ++ ["flake.nix"]) then
        some current
      else
        flakeWalkFuel fs fuel (some current) current.dropLast
    else
      none

/-! ### The reference splitting regex -/

/-- Embedding of Python `re.match` for
`Flake._re = re.compile(r"^(?P<path>[^\#]*)\#?(?P<attr>[^\#\"]*)$")`
(models.py line 121), on a list of characters.

Semantics of this particular pattern under Python `re` (leftmost-greedy with
backtracking, `$` matching at the end of the string or before a trailing
newline):
* if the input contains no `#`, the greedy `[^\#]*` consumes the whole
  input and the `attr` group is empty — every such string matches;
* otherwise the `path` group must stop at the first `#` (its class excludes
  `#`), the optional `\#` consumes it, and `[^\#\"]*` must consume the
  entire remainder, which therefore may contain neither `#` nor `"`.
  Backtracking over a shorter `path` or an unconsumed `\#?` cannot help,
  because both classes exclude `#`, so the first `#` blocks every
  alternative; and the before-trailing-newline alternative of `$` never
  fires, since a newline is excluded by neither class and is therefore
  consumed greedily.

Returns the `path` and `attr` groups on success. -/
def reSplit (s : List Char) : Option (List Char × List Char) :=
  if '#' ∈ s then
    if '#' ∈ (s.dropWhile (fun c => c ≠ '#')).tail ∨
        '"' ∈ (s.dropWhile (fun c => c ≠ '#')).tail then
      none
    else
      some (s.takeWhile (fun c => c ≠ '#'),
        (s.dropWhile (fun c => c ≠ '#')).tail)
  else
    some (s, [])

/-- `Flake._re.match(flake_str)` with the `path` and `attr` groups, `none`
when the regex does not match (in which case the
`assert m is not None` in `Flake.parse` fires). -/
def flakeReMatch (s : String) : Option (String × String) :=
  (reSplit s.data).map (fun pa => (String.mk pa.1, String.mk pa.2))

/-! ### Hostname resolution -/

/-- Outcome of the remote hostname probe
`run_wrapper(["uname", "-n"], capture_output=True, remote=target_host)`:
either a captured standard output, or one of the two exception kinds that
`get_hostname` catches.  `run_wrapper` lives in the excluded `.process`
module, so its outcome is a parameter of the model. -/
inductive ProbeResult
  | ok (stdout : String)
  | attributeError
  | calledProcessError
deriving DecidableEq

/-- A remote host handle (`Remote` from the excluded `.process` module);
only its presence or absence matters to the analysed code. -/
structure Remote where
  host : String
deriving DecidableEq

/-- `get_hostname(target_host)` (models.py lines 103-114), with the probe
outcome and the local `platform.node()` value supplied as parameters.

```python
if target_host:
    try:
        return run_wrapper(["uname", "-n"], capture_output=True,
                           remote=target_host).stdout.strip()
    except (AttributeError, subprocess.CalledProcessError):
        return None
else:
    return platform.node()
```
-/
def get_hostname (probe : ProbeResult) (localNode : String) :
    Option Remote → Option String
  | some _ =>
    match probe with
    | .ok out => some (pyStrip out)
    | .attributeError => none
    | .calledProcessError => none
  | none => some localNode

/-! ### The `Flake` dataclass and `Flake.parse` -/

/-- `Flake.path` has Python type `Path | str`; the two sides are not
interchangeable (dataclass equality distinguishes them). -/
inductive PathOrStr
  | path (p : FsPath)
  | str (s : String)
deriving DecidableEq

/-- The frozen dataclass `Flake` (models.py lines 117-128). -/
structure Flake where
  path : PathOrStr
  attr : String
deriving DecidableEq

/-- `Flake.__str__`, that is `f"{self.path}#{self.attr}"`. -/
def Flake.str (fl : Flake) : String :=
  (match fl.path with
   | .path p => pathToString p
   | .str s => s) ++ "#" ++ fl.attr

/-- The attribute name chosen inside `Flake.parse`:
`attr or get_hostname(target_host) or "default"` (Python `or` skips
falsy values, i.e. `None` and the empty string). -/
def attrName (probe : ProbeResult) (localNode : String)
    (target_host : Option Remote) (attr : String) : String :=
  if attr ≠ "" then attr
  else
    match get_hostname probe localNode target_host with
    | some h => if h ≠ "" then h else "default"
    | none => "default"

/-- `Flake.parse(flake_str, target_host)` (models.py lines 130-154), with
the filesystem, the probe outcome and the local node name as parameters.
Returns `none` exactly when `assert m is not None` fires.

```python
m = cls._re.match(flake_str)
assert m is not None, f"got no matches for {flake_str}"
attr = m.group("attr")
nixos_attr = (
    f'nixosConfigurations."{attr or get_hostname(target_host) or "default"}"'
)
path_str = m.group("path")
if ":" in path_str:
    return cls(path_str, nixos_attr)
else:
    path = Path(path_str)
    git_repo = discover_git(path)
    if git_repo is not None:
        url = f"git+file://{git_repo}"
        flake_path = discover_closest_flake(path)
        if (
            flake_path is not None
            and flake_path != git_repo
            and flake_path.is_relative_to(git_repo)
        ):
            url += f"?dir={flake_path.relative_to(git_repo)}"
        return cls(url, nixos_attr)
    return cls(path, nixos_attr)
```
-/
def Flake.parse (fs : FS) (probe : ProbeResult) (localNode : String)
    (flake_str : String) (target_host : Option Remote) : Option Flake :=
  match flakeReMatch flake_str with
  | none => none
  | some (path_str, attr) =>
    let nixos_attr :=
      "nixosConfigurations.\"" ++ attrName probe localNode target_host attr
        ++ "\""
    if pyContainsChar path_str ':' then
      some ⟨.str path_str, nixos_attr⟩
    else
      let path := pathOfString path_str
      match discover_git fs path with
      | some git_repo =>
        let url := "git+file://" ++ pathToString git_repo
        let url2 :=
          match discover_closest_flake fs path with
          | some flake_path =>
            if flake_path ≠ git_repo ∧ git_repo.isPrefixOf flake_path then
              url ++ "?dir=" ++
                String.intercalate "/" (flake_path.drop git_repo.length)
            else url
          | none => url
        some ⟨.str url2, nixos_attr⟩
      | none => some ⟨.path path, nixos_attr⟩

/-! ### Concrete test filesystems -/

/-- A filesystem with nothing in it (every path is neither a directory nor
a file). -/
def emptyFS : FS where
  isDir := fun _ => false
  isFile := fun _ => false
  content := fun _ => ""
  resolve := id

/-- A repository at `/r` (with a `.git` directory) whose manifest sits in
the sub-directory `/r/sub`. -/
def fsRepo : FS where
  isDir := fun p =>
    decide (p = [] ∨ p = ["r"] ∨ p = ["r", "sub"] ∨ p = ["r", ".git"])
  isFile := fun p => decide (p = ["r", "sub", "flake.nix"])
  content := fun _ => ""
  resolve := id

/-- A filesystem whose `/a/.git` is a regular file with the content
`"gidref: /elsewhere/.git"` — the key is misspelt, so it is not a valid
worktree pointer for the code. -/
def fsGidref : FS where
  isDir := fun p => decide (p = [] ∨ p = ["a"])
  isFile := fun p => decide (p = ["a", ".git"])
  content := fun p =>
    if p = ["a", ".git"] then "gidref: /elsewhere/.git" else ""
  resolve := id

/-- A filesystem whose `/a/.git` is a regular file with a well-formed
worktree pointer content `"gitdir: /elsewhere/.git"`. -/
def fsWorktree : FS where
  isDir := fun p => decide (p = [] ∨ p = ["a"])
  isFile := fun p => decide (p = ["a", ".git"])
  content := fun p =>
    if p = ["a", ".git"] then "gitdir: /elsewhere/.git" else ""
  resolve := id

/-- A filesystem whose `/a/.git` is a regular file with malformed pointer
content, while `/` itself holds a `.git` directory. -/
def fsBadPointer : FS where
  isDir := fun p => decide (p = [] ∨ p = ["a"] ∨ p = [".git"])
  isFile := fun p => decide (p = ["a", ".git"])
  content := fun p =>
    if p = ["a", ".git"] then "not a worktree pointer" else ""
  resolve := id

/-! ### Helper lemmas: loop measure and fuel elimination -/

/-- The loop measure of the upward walks decreases at each iteration:
stepping from `current` to `current.dropLast` with `previous := current`
shrinks `length + (1 if the fixed point has not yet been reached)`. -/
theorem walkMeasure_lt (previous : Option FsPath) (current : FsPath)
    (h : previous ≠ some current) :
    current.dropLast.length +
        (if some current = some current.dropLast then 0 else 1) <
      current.length + (if previous = some current then 0 else 1) := by
  rw [if_neg h]
  cases current with
  | nil => simp
  | cons a l =>
      have hl : (a :: l).dropLast.length = l.length := by
        simp [List.length_dropLast]
      rw [hl]
      have hc2 : (a :: l).length = l.length + 1 := by simp
      rw [hc2]
      split
      · omega
      · omega

/-- The fuel-bounded `discover_git` loop agrees with the unbounded one as
soon as the fuel covers the loop measure of the starting state: the walk
never needs more than `current.length + 1` iterations. -/
theorem gitWalkFuel_le_eq (fs : FS) :
    ∀ (fuel : Nat) (previous : Option FsPath) (current : FsPath),
      current.length + (if previous = some current then 0 else 1) ≤ fuel →
      gitWalkFuel fs fuel previous current = gitWalk fs previous current := by
  intro fuel
  induction fuel with
  | zero =>
      intro previous current h
      by_cases hp : previous = some current
      · rw [gitWalk]
        simp [gitWalkFuel, hp]
      · simp [hp] at h
  | succ n ih =>
      intro previous current h
      rw [gitWalkFuel, gitWalk]
      by_cases hg : fs.isDir current = true ∧ previous ≠ some current
      · rw [if_pos hg, dif_pos hg]
        have hle : current.dropLast.length +
            (if some current = some current.dropLast then 0 else 1) ≤ n := by
          have hlt := walkMeasure_lt previous current hg.2
          rw [if_neg hg.2] at h hlt
          omega
        by_cases h1 : fs.isDir (current ++ [".git"]) = true
        · simp [h1]
        · by_cases h2 : fs.isFile (current ++ [".git"]) = true
          · by_cases h3 :
                pyStartsWith (pyStrip (fs.content (current ++ [".git"])))
                  "gitdir: " = true
            · simp [h1, h2, h3]
            · simp [h1, h2, h3, ih _ _ hle]
          · simp [h1, h2, ih _ _ hle]
      · rw [if_neg hg, dif_neg hg]

/-- The fuel-bounded `discover_closest_flake` loop agrees with the unbounded
one as soon as the fuel covers the loop measure of the starting state. -/
theorem flakeWalkFuel_le_eq (fs : FS) :
    ∀ (fuel : Nat) (previous : Option FsPath) (current : FsPath),
      current.length + (if previous = some current then 0 else 1) ≤ fuel →
      flakeWalkFuel fs fuel previous current = flakeWalk fs previous current := by
  intro fuel
  induction fuel with
  | zero =>
      intro previous current h
      by_cases hp : previous = some current
      · rw [flakeWalk]
        simp [flakeWalkFuel, hp]
      · simp [hp] at h
  | succ n ih =>
      intro previous current h
      rw [flakeWalkFuel, flakeWalk]
      by_cases hg : fs.isDir current = true ∧ previous ≠ some current
      · rw [if_pos hg, dif_pos hg]
        have hle : current.dropLast.length +
            (if some current = some current.dropLast then 0 else 1) ≤ n := by
          have hlt := walkMeasure_lt previous current hg.2
          rw [if_neg hg.2] at h hlt
          omega
        by_cases h1 : fs.isFile (current ++ ["flake.nix"]) = true
        · simp [h1]
        · simp [h1, ih _ _ hle]
      · rw [if_neg hg, dif_neg hg]

/-- `discover_git` is computed by the fuel-bounded loop with `depth + 1`
iterations available, where `depth` is the component depth of the
canonicalised starting path. -/
theorem discover_git_fuel (fs : FS) (location : FsPath) :
    discover_git fs location =
      gitWalkFuel fs ((fs.resolve location).length + 1) none
        (fs.resolve location) := by
  rw [discover_git, gitWalkFuel_le_eq]
  rw [if_neg (show (none : Option FsPath) ≠ some (fs.resolve location)
    from by simp)]

/-- `discover_closest_flake` is computed by the fuel-bounded loop with
`depth + 1` iterations available. -/
theorem discover_closest_flake_fuel (fs : FS) (location : FsPath) :
    discover_closest_flake fs location =
      flakeWalkFuel fs ((fs.resolve location).length + 1) none
        (fs.resolve location) := by
  rw [discover_closest_flake, flakeWalkFuel_le_eq]
  rw [if_neg (show (none : Option FsPath) ≠ some (fs.resolve location)
    from by simp)]

/-! ### Helper lemmas: the splitting regex -/

/-- Scanning for the first `#`: prepending a `#`-free prefix to a list that
starts with `#` makes `takeWhile` return that prefix and `dropWhile` the
rest. -/
theorem takeWhile_hash_append (l₁ l₂ : List Char) (h : '#' ∉ l₁) :
    (l₁ ++ '#' :: l₂).takeWhile (fun c => c ≠ '#') = l₁ ∧
      (l₁ ++ '#' :: l₂).dropWhile (fun c => c ≠ '#') = '#' :: l₂ := by
  induction l₁ with
  | nil => simp [List.takeWhile, List.dropWhile]
  | cons a t ih =>
      simp only [List.mem_cons, not_or] at h
      have ha : a ≠ '#' := fun e => h.1 e.symm
      refine ⟨?_, ?_⟩
      · simpa [List.takeWhile_cons, ha] using (ih h.2).1
      · simpa [List.dropWhile_cons, ha] using (ih h.2).2

/-- A list containing `#` decomposes as the `#`-free part before the first
`#`, the `#`, and the remainder. -/
theorem hash_decomp (l : List Char) (h : '#' ∈ l) :
    l = l.takeWhile (fun c => c ≠ '#') ++
      '#' :: (l.dropWhile (fun c => c ≠ '#')).tail := by
  induction l with
  | nil => simp at h
  | cons a t ih =>
      by_cases ha : a = '#'
      · subst ha
        simp [List.takeWhile_cons, List.dropWhile_cons]
      · have ht : '#' ∈ t := by
          rcases List.mem_cons.mp h with he | hmem
          · exact absurd he.symm ha
          · exact hmem
        have := ih ht
        simp only [List.takeWhile_cons, List.dropWhile_cons, ha, if_false]
        simpa [ha] using this

/-- When the regex matches, the `path` group contains no `#` and the
`attr` group contains neither `#` nor `"`. -/
theorem reSplit_some (s p a : List Char) (h : reSplit s = some (p, a)) :
    '#' ∉ p ∧ '#' ∉ a ∧ '"' ∉ a := by
  unfold reSplit at h
  split at h
  · split at h
    · exact absurd h (by simp)
    · rename_i hbad
      push_neg at hbad
      injection h with h'
      have hp := congrArg Prod.fst h'
      have ha := congrArg Prod.snd h'
      simp only at hp ha
      subst hp ha
      refine ⟨?_, hbad.1, hbad.2⟩
      intro hmem
      have := List.mem_takeWhile_imp hmem
      simp at this
  · rename_i hh
    injection h with h'
    have hp := congrArg Prod.fst h'
    have ha := congrArg Prod.snd h'
    simp only at hp ha
    subst hp ha
    exact ⟨hh, by simp, by simp⟩

/-- String-level version of `reSplit_some`. -/
theorem flakeReMatch_groups (s pstr attr : String)
    (hm : flakeReMatch s = some (pstr, attr)) :
    '#' ∉ pstr.data ∧ '#' ∉ attr.data ∧ '"' ∉ attr.data := by
  unfold flakeReMatch at hm
  cases hr : reSplit s.data with
  | none => rw [hr] at hm; exact absurd hm (by simp)
  | some pa =>
      rw [hr] at hm
      simp only [Option.map_some', Option.some.injEq, Prod.mk.injEq] at hm
      obtain ⟨h1, h2⟩ := hm
      have := reSplit_some s.data pa.1 pa.2 (by rw [hr])
      rw [← h1, ← h2]
      exact this

/-- The regex rejects any string made of a `#`-free prefix, a `#`, and a
remainder containing a double quote. -/
theorem flakeReMatch_quote_after_hash (pstr rest : String)
    (h1 : '#' ∉ pstr.data) (hq : '"' ∈ rest.data) :
    flakeReMatch (pstr ++ "#" ++ rest) = none := by
  unfold flakeReMatch reSplit
  have hd : (pstr ++ "#" ++ rest).data = pstr.data ++ '#' :: rest.data := by
    simp [String.data_append]
  rw [hd]
  have hh : '#' ∈ pstr.data ++ '#' :: rest.data := by simp
  obtain ⟨-, hdw⟩ := takeWhile_hash_append pstr.data rest.data h1
  rw [if_pos hh, hdw]
  simp [hq]

/-! ### Helper lemmas: `Flake.parse` -/

/-- Whatever branch `Flake.parse` takes, the attribute of the returned
reference is the quoted default attribute built from the `attr` group. -/
theorem parse_attr_eq (fs : FS) (probe : ProbeResult) (ln : String)
    (th : Option Remote) (s pstr attr : String) (fl : Flake)
    (hm : flakeReMatch s = some (pstr, attr))
    (hp : Flake.parse fs probe ln s th = some fl) :
    fl.attr = "nixosConfigurations.\"" ++ attrName probe ln th attr ++ "\"" := by
  unfold Flake.parse at hp
  rw [hm] at hp
  by_cases hc : pyContainsChar pstr ':' = true
  · simp only [hc, if_true] at hp
    injection hp with h'
    subst h'
    rfl
  · rw [Bool.not_eq_true] at hc
    simp only [hc, Bool.false_eq_true, if_false] at hp
    cases hg : discover_git fs (pathOfString pstr) with
    | some R =>
        rw [hg] at hp
        injection hp with h'
        subst h'
        rfl
    | none =>
        rw [hg] at hp
        injection hp with h'
        subst h'
        rfl

/-- The chosen attribute name is never the empty string. -/
theorem attrName_ne_empty (probe : ProbeResult) (ln : String)
    (th : Option Remote) (attr : String) :
    attrName probe ln th attr ≠ "" := by
  unfold attrName
  split
  · assumption
  · cases get_hostname probe ln th with
    | none => decide
    | some h =>
        by_cases hh : h = ""
        · simp [hh]
        · simp [hh]

/-! ### The claims -/

/-- Claim C1: for a raw reference whose path part has no colon and lies in
a discovered repository with root `R`, `parse` returns
`git+file://R`, and the `?dir=<p>` fragment is appended exactly when the
closest-manifest search from the original path part finds `F` with
`F ≠ R` and `F` nested under `R`, `p` being `F` relative to `R`; in every
other case the fragment is omitted. -/
theorem c1_repo_url_dir_fragment (fs : FS) (probe : ProbeResult) (ln : String)
    (th : Option Remote) (s pstr attr : String) (R : FsPath)
    (hm : flakeReMatch s = some (pstr, attr))
    (hc : pyContainsChar pstr ':' = false)
    (hR : discover_git fs (pathOfString pstr) = some R) :
    (∃ F, discover_closest_flake fs (pathOfString pstr) = some F ∧ F ≠ R ∧
        R.isPrefixOf F = true ∧
        Flake.parse fs probe ln s th =
          some ⟨.str ("git+file://" ++ pathToString R ++ "?dir=" ++
              String.intercalate "/" (F.drop R.length)),
            "nixosConfigurations.\"" ++ attrName probe ln th attr ++ "\""⟩) ∨
      ((∀ F, discover_closest_flake fs (pathOfString pstr) = some F →
          F = R ∨ ¬ R.isPrefixOf F = true) ∧
        Flake.parse fs probe ln s th =
          some ⟨.str ("git+file://" ++ pathToString R),
            "nixosConfigurations.\"" ++ attrName probe ln th attr ++ "\""⟩) := by
  unfold Flake.parse
  rw [hm]
  simp only [hc, Bool.false_eq_true, if_false]
  rw [hR]
  dsimp only
  cases hF : discover_closest_flake fs (pathOfString pstr) with
  | some F =>
      dsimp only
      by_cases hcond : F ≠ R ∧ R.isPrefixOf F = true
      · left
        refine ⟨F, rfl, hcond.1, hcond.2, ?_⟩
        rw [if_pos hcond]
      · right
        constructor
        · intro F' hF'
          injection hF' with hFe
          subst hFe
          rcases not_and_or.mp hcond with h | h
          · exact Or.inl (not_not.mp h)
          · exact Or.inr h
        · rw [if_neg hcond]
  | none =>
      dsimp only
      right
      constructor
      · intro F' hF'
        exact Option.noConfusion hF'
      · rfl

/-- Witness for C1 on `fsRepo`: repository at `/r`, manifest at `/r/sub`,
parsed reference `/r/sub#host`; the `?dir=sub` fragment is appended. -/
theorem c1_witness :
    (∃ F, discover_closest_flake fsRepo (pathOfString "/r/sub") = some F ∧
        F ≠ ["r"] ∧ (["r"] : FsPath).isPrefixOf F = true ∧
        Flake.parse fsRepo ProbeResult.attributeError "" "/r/sub#host" none =
          some ⟨.str ("git+file://" ++ pathToString ["r"] ++ "?dir=" ++
              String.intercalate "/" (F.drop (["r"] : FsPath).length)),
            "nixosConfigurations.\"" ++
              attrName ProbeResult.attributeError "" none "host" ++ "\""⟩) ∨
      ((∀ F, discover_closest_flake fsRepo (pathOfString "/r/sub") = some F →
          F = ["r"] ∨ ¬ (["r"] : FsPath).isPrefixOf F = true) ∧
        Flake.parse fsRepo ProbeResult.attributeError "" "/r/sub#host" none =
          some ⟨.str ("git+file://" ++ pathToString ["r"]),
            "nixosConfigurations.\"" ++
              attrName ProbeResult.attributeError "" none "host" ++ "\""⟩) :=
  c1_repo_url_dir_fragment fsRepo ProbeResult.attributeError "" none
    "/r/sub#host" "/r/sub" "host" ["r"] (by decide) (by decide)
    (by rw [discover_git_fuel]; decide)

/-- Claim C2, counterexample: the splitting regex is not total — on the
input `"##"` it does not match, so the assertion in `Flake.parse` fires
(modelled as `parse = none`). -/
theorem c2_counterexample :
    flakeReMatch "##" = none ∧
      Flake.parse emptyFS ProbeResult.attributeError "" "##" none = none := by
  constructor
  · decide
  · decide

/-- Claim C2, amended: the splitting regex matches exactly those strings
that either contain no `#`, or decompose as a `#`-free part, one `#`, and
a remainder free of `#` and of double quotes; on every other string the
assertion guarding the match fires. -/
theorem c2_regex_match_characterization (s : String) :
    flakeReMatch s ≠ none ↔
      ('#' ∉ s.data ∨
        ∃ p a : List Char, s.data = p ++ '#' :: a ∧
          '#' ∉ p ∧ '#' ∉ a ∧ '"' ∉ a) := by
  unfold flakeReMatch reSplit
  by_cases hh : '#' ∈ s.data
  · rw [if_pos hh]
    by_cases hbad : '#' ∈ (s.data.dropWhile (fun c => c ≠ '#')).tail ∨
        '"' ∈ (s.data.dropWhile (fun c => c ≠ '#')).tail
    · rw [if_pos hbad]
      simp only [Option.map_none', ne_eq, not_true_eq_false, false_iff]
      push_neg
      refine ⟨hh, ?_⟩
      intro p a hdecomp hp hha
      obtain ⟨-, hdw⟩ := takeWhile_hash_append p a hp
      rw [hdecomp, hdw] at hbad
      simp only [List.tail_cons] at hbad
      rcases hbad with hb | hb
      · exact absurd hb hha
      · exact hb
    · rw [if_neg hbad]
      simp only [Option.map_some', ne_eq, reduceCtorEq, not_false_eq_true,
        true_iff]
      right
      push_neg at hbad
      refine ⟨s.data.takeWhile (fun c => c ≠ '#'),
        (s.data.dropWhile (fun c => c ≠ '#')).tail,
        hash_decomp s.data hh, ?_, hbad.1, hbad.2⟩
      intro hmem
      have := List.mem_takeWhile_imp hmem
      simp at this
  · rw [if_neg hh]
    simp only [Option.map_some', ne_eq, reduceCtorEq, not_false_eq_true,
      true_iff]
    left
    exact hh

/-- Claim C3, counterexample: for the URL-scheme input `"x:#y"`, `parse`
succeeds, but re-parsing its canonical printed form hits the assertion
(the quoted attribute contains a double quote, which the regex rejects),
so `parse(str(parse(s)))` is not `parse(s)`. -/
theorem c3_counterexample :
    Flake.parse emptyFS ProbeResult.attributeError "" "x:#y" none =
      some ⟨.str "x:", "nixosConfigurations.\"y\""⟩ ∧
      Flake.parse emptyFS ProbeResult.attributeError ""
        (Flake.str ⟨.str "x:", "nixosConfigurations.\"y\""⟩) none = none := by
  constructor
  · decide
  · decide

/-- Claim C3, amended: for every raw reference whose path part contains a
colon, re-parsing the canonical printed form of the parse result always
fails the splitting regex and hits the assertion (returns `none`), because
the canonical attribute path carries double quotes; so re-parsing never
reproduces the reference. -/
theorem c3_reparse_asserts (fs fs' : FS) (probe probe' : ProbeResult)
    (ln ln' : String) (th th' : Option Remote) (s pstr attr : String)
    (fl : Flake)
    (hm : flakeReMatch s = some (pstr, attr))
    (hc : pyContainsChar pstr ':' = true)
    (hp : Flake.parse fs probe ln s th = some fl) :
    Flake.parse fs' probe' ln' fl.str th' = none := by
  unfold Flake.parse at hp
  rw [hm] at hp
  simp only [hc, if_true] at hp
  injection hp with h'
  subst h'
  have hstr : Flake.str ⟨.str pstr,
      "nixosConfigurations.\"" ++ attrName probe ln th attr ++ "\""⟩ =
      pstr ++ "#" ++
        ("nixosConfigurations.\"" ++ attrName probe ln th attr ++ "\"") := rfl
  rw [hstr]
  have hnp := (flakeReMatch_groups s pstr attr hm).1
  have hq : '"' ∈ ("nixosConfigurations.\"" ++ attrName probe ln th attr
      ++ "\"").data := by
    rw [String.data_append]
    exact List.mem_append.mpr (Or.inr (by decide))
  unfold Flake.parse
  rw [flakeReMatch_quote_after_hash pstr _ hnp hq]

/-- Witness for the amended C3 at the concrete input `"x:#y"`. -/
theorem c3_witness :
    Flake.parse emptyFS ProbeResult.calledProcessError "n2"
      (Flake.str ⟨.str "x:", "nixosConfigurations.\"y\""⟩) none = none :=
  c3_reparse_asserts emptyFS emptyFS ProbeResult.attributeError
    ProbeResult.calledProcessError "" "n2" none none "x:#y" "x:" "y"
    ⟨.str "x:", "nixosConfigurations.\"y\""⟩ (by decide) (by decide)
    (by decide)

/-- Claim C4, counterexample: with a `.git` regular file whose content is
`"gidref: /elsewhere/.git"` (the literal key named by the claim), the
locator does not return `/elsewhere/.git`: the key the code expects is
`"gitdir: "`, so the file is skipped and the walk finds nothing. -/
theorem c4_counterexample :
    discover_git fsGidref ["a"] = none ∧
      discover_git fsGidref ["a"] ≠ some (pathOfString "/elsewhere/.git") := by
  rw [discover_git_fuel]
  constructor
  · decide
  · decide

/-- Claim C4, amended: when the upward walk starts at a directory whose
`.git` entry is a regular file with content `"gitdir: /elsewhere/.git"`
(key `gitdir`, not `gidref`), `discover_git` returns `/elsewhere/.git`
verbatim — no other filesystem assumption is made, in particular nothing
about `/elsewhere/.git` existing. -/
theorem c4_worktree_redirect (fs : FS) (location : FsPath)
    (hd : fs.isDir (fs.resolve location) = true)
    (hnd : fs.isDir (fs.resolve location ++ [".git"]) = false)
    (hf : fs.isFile (fs.resolve location ++ [".git"]) = true)
    (hc : fs.content (fs.resolve location ++ [".git"]) =
      "gitdir: /elsewhere/.git") :
    discover_git fs location = some (pathOfString "/elsewhere/.git") := by
  rw [discover_git, gitWalk]
  have hg : fs.isDir (fs.resolve location) = true ∧
      (none : Option FsPath) ≠ some (fs.resolve location) := ⟨hd, by simp⟩
  rw [dif_pos hg]
  simp only [hnd, Bool.false_eq_true, if_false, hf, if_true, hc]
  have hsw : pyStartsWith (pyStrip "gitdir: /elsewhere/.git") "gitdir: " =
      true := by decide
  rw [if_pos hsw]
  decide

/-- Witness for the amended C4 on `fsWorktree`. -/
theorem c4_witness : discover_git fsWorktree ["a"] =
    some (pathOfString "/elsewhere/.git") :=
  c4_worktree_redirect fsWorktree ["a"] (by decide) (by decide) (by decide)
    (by decide)

/-- Claim C5, counterexample: a `.git` regular file with malformed pointer
content does not surface as a hard error — it is silently skipped and the
walk continues upward, here finding the enclosing repository at `/`. -/
theorem c5_counterexample : discover_git fsBadPointer ["a"] = some [] := by
  rw [discover_git_fuel]
  decide

/-- Claim C5, amended: when the walk meets a `.git` regular file whose
content does not start with `"gitdir: "`, the entry is silently ignored
and the walk continues at the parent directory; no error state exists in
the function. -/
theorem c5_malformed_pointer_skipped (fs : FS) (previous : Option FsPath)
    (current : FsPath)
    (hg : fs.isDir current = true) (hne : previous ≠ some current)
    (hnd : fs.isDir (current ++ [".git"]) = false)
    (hf : fs.isFile (current ++ [".git"]) = true)
    (hns : pyStartsWith (pyStrip (fs.content (current ++ [".git"])))
      "gitdir: " = false) :
    gitWalk fs previous current = gitWalk fs (some current) current.dropLast := by
  conv_lhs => rw [gitWalk]
  rw [dif_pos (⟨hg, hne⟩ : fs.isDir current = true ∧ previous ≠ some current)]
  simp only [hnd, Bool.false_eq_true, if_false, hf, if_true, hns]

/-- Witness for the amended C5 on `fsBadPointer`. -/
theorem c5_witness :
    gitWalk fsBadPointer none ["a"] = gitWalk fsBadPointer (some ["a"]) [] :=
  c5_malformed_pointer_skipped fsBadPointer none ["a"] (by decide) (by decide)
    (by decide) (by decide) (by decide)

/-- Claim C6: when the path part contains a colon, `parse` returns exactly
that path part as the location together with the computed default
attribute, and the result does not depend on the filesystem (no repository
or manifest discovery happens). -/
theorem c6_url_passthrough (fs fs' : FS) (probe : ProbeResult) (ln : String)
    (th : Option Remote) (s pstr attr : String)
    (hm : flakeReMatch s = some (pstr, attr))
    (hc : pyContainsChar pstr ':' = true) :
    Flake.parse fs probe ln s th =
      some ⟨.str pstr,
        "nixosConfigurations.\"" ++ attrName probe ln th attr ++ "\""⟩ ∧
      Flake.parse fs probe ln s th = Flake.parse fs' probe ln s th := by
  unfold Flake.parse
  rw [hm]
  simp [hc]

/-- Witness for C6 at `"x:#y"`, comparing the empty filesystem with a
filesystem where every path exists. -/
theorem c6_witness :
    Flake.parse emptyFS ProbeResult.attributeError "" "x:#y" none =
      some ⟨.str "x:",
        "nixosConfigurations.\"" ++
          attrName ProbeResult.attributeError "" none "y" ++ "\""⟩ ∧
      Flake.parse emptyFS ProbeResult.attributeError "" "x:#y" none =
        Flake.parse
          { isDir := fun _ => true, isFile := fun _ => true,
            content := fun _ => "", resolve := id }
          ProbeResult.attributeError "" "x:#y" none :=
  c6_url_passthrough emptyFS _ ProbeResult.attributeError "" none
    "x:#y" "x:" "y" (by decide) (by decide)

/-- Claim C7: every reference returned by `parse` has an attribute path of
the exact shape `nixosConfigurations."<name>"` with `<name>` non-empty;
when both the attribute part and the resolved hostname are empty or
absent, `<name>` is the literal `"default"`; the attribute path is never
empty. -/
theorem c7_attr_shape (fs : FS) (probe : ProbeResult) (ln : String)
    (th : Option Remote) (s pstr attr : String) (fl : Flake)
    (hm : flakeReMatch s = some (pstr, attr))
    (hp : Flake.parse fs probe ln s th = some fl) :
    ∃ name : String, name ≠ "" ∧
      fl.attr = "nixosConfigurations.\"" ++ name ++ "\"" ∧
      fl.attr ≠ "" ∧
      ((attr = "" ∧ (get_hostname probe ln th = none ∨
          get_hostname probe ln th = some "")) → name = "default") := by
  refine ⟨attrName probe ln th attr,
    attrName_ne_empty probe ln th attr,
    parse_attr_eq fs probe ln th s pstr attr fl hm hp, ?_, ?_⟩
  · rw [parse_attr_eq fs probe ln th s pstr attr fl hm hp]
    intro heq
    have hlen := congrArg String.length heq
    rw [String.length_append, String.length_append] at hlen
    have h21 : ("nixosConfigurations.\"" : String).length = 21 := rfl
    have h1 : ("\"" : String).length = 1 := rfl
    rw [h21, h1] at hlen
    simp at hlen
  · rintro ⟨ha, hgh⟩
    subst ha
    unfold attrName
    rcases hgh with h | h
    · simp [h]
    · simp [h]

/-- Witness for C7 at `"x:#"` with a remote probe that captured an empty
output: the attribute falls back to `"default"`. -/
theorem c7_witness :
    ∃ name : String, name ≠ "" ∧
      (⟨.str "x:", "nixosConfigurations.\"default\""⟩ : Flake).attr =
        "nixosConfigurations.\"" ++ name ++ "\"" ∧
      (⟨.str "x:", "nixosConfigurations.\"default\""⟩ : Flake).attr ≠ "" ∧
      (("" = "" ∧ (get_hostname (ProbeResult.ok "") "" (some ⟨"r"⟩) = none ∨
          get_hostname (ProbeResult.ok "") "" (some ⟨"r"⟩) = some "")) →
        name = "default") :=
  c7_attr_shape emptyFS (ProbeResult.ok "") "" (some ⟨"r"⟩) "x:#" "x:" ""
    ⟨.str "x:", "nixosConfigurations.\"default\""⟩ (by decide) (by decide)

/-- Claim C8: `get_hostname` returns the local node name when no remote
handle is supplied, and returns `none` (rather than raising) when a remote
handle is supplied and the probe fails with either of the two caught
exception kinds. -/
theorem c8_get_hostname_best_effort (probe : ProbeResult) (localNode : String) :
    get_hostname probe localNode none = some localNode ∧
      ∀ r : Remote,
        probe = ProbeResult.attributeError ∨
          probe = ProbeResult.calledProcessError →
        get_hostname probe localNode (some r) = none := by
  refine ⟨rfl, ?_⟩
  intro r hp
  rcases hp with h | h
  · rw [h]; rfl
  · rw [h]; rfl

/-- Witness for C8 with a failing probe. -/
theorem c8_witness :
    get_hostname ProbeResult.calledProcessError "myhost" none =
        some "myhost" ∧
      get_hostname ProbeResult.calledProcessError "myhost" (some ⟨"remote"⟩) =
        none :=
  ⟨(c8_get_hostname_best_effort ProbeResult.calledProcessError "myhost").1,
    (c8_get_hostname_best_effort ProbeResult.calledProcessError "myhost").2
      ⟨"remote"⟩ (Or.inr rfl)⟩

/-- Claim C9: both upward walks terminate within `depth + 1` loop
iterations — equivalently at most `depth` parent steps — where `depth` is
the component depth of the canonicalised starting path: giving the
fuel-bounded loop any budget of at least `depth + 1` computes the very
result of the unbounded loop, including for the root (whose parent is
itself, depth `0`). -/
theorem c9_walks_bounded (fs : FS) (location : FsPath) (fuel : Nat)
    (hfuel : (fs.resolve location).length + 1 ≤ fuel) :
    gitWalkFuel fs fuel none (fs.resolve location) =
        discover_git fs location ∧
      flakeWalkFuel fs fuel none (fs.resolve location) =
        discover_closest_flake fs location := by
  constructor
  · rw [discover_git, gitWalkFuel_le_eq]
    rw [if_neg (show (none : Option FsPath) ≠ some (fs.resolve location)
      from by simp)]
    omega
  · rw [discover_closest_flake, flakeWalkFuel_le_eq]
    rw [if_neg (show (none : Option FsPath) ≠ some (fs.resolve location)
      from by simp)]
    omega

/-- Witness for C9 on `fsRepo` from `/r/sub` (depth `2`, fuel `3`). -/
theorem c9_witness :
    gitWalkFuel fsRepo 3 none ["r", "sub"] =
        discover_git fsRepo ["r", "sub"] ∧
      flakeWalkFuel fsRepo 3 none ["r", "sub"] =
        discover_closest_flake fsRepo ["r", "sub"] :=
  c9_walks_bounded fsRepo ["r", "sub"] 3 (by decide)

/-- Claim C10: when the attribute part of the raw reference is non-empty,
the parse result is independent of the remote handle and of every
hostname-related input (the default-attribute computation short-circuits
on the explicit attribute). -/
theorem c10_remote_independent (fs : FS) (probe probe' : ProbeResult)
    (ln ln' : String) (th th' : Option Remote) (s pstr attr : String)
    (hm : flakeReMatch s = some (pstr, attr)) (ha : attr ≠ "") :
    Flake.parse fs probe ln s th = Flake.parse fs probe' ln' s th' := by
  unfold Flake.parse
  rw [hm]
  simp [attrName, ha]

/-- Witness for C10 at `"/nosuch#h"` with two different remote handles and
probe outcomes. -/
theorem c10_witness :
    Flake.parse emptyFS ProbeResult.attributeError "nodeA" "/nosuch#h"
        (some ⟨"remoteB"⟩) =
      Flake.parse emptyFS (ProbeResult.ok "otherhost") "nodeC" "/nosuch#h"
        none :=
  c10_remote_independent emptyFS ProbeResult.attributeError
    (ProbeResult.ok "otherhost") "nodeA" "nodeC" (some ⟨"remoteB"⟩) none
    "/nosuch#h" "/nosuch" "h" (by decide) (by decide)

end NixosRebuild
